import Mathlib

/-!
Shallow embedding of src/semaphore.hpp, a C++17 backport of the C++20
counting_semaphore API (class counting_semaphore with a compile-time bound
LeastMaxValue, here the parameter L).

Modelling choices:
* m_count is std::ptrdiff_t, modelled as Int (no overflow is reachable in the
  claims considered, which stay near [0, L]).
* The single-threaded (sequential, atomic-operation) semantics is modelled:
  each member function runs to completion under the internal mutex.  A
  condition-variable wait with a predicate over m_count therefore returns the
  current value of the predicate, because no other thread can change m_count
  while the caller is blocked; a deadline or timeout only bounds the time
  spent blocked, which the timed operations report explicitly.
* A blocking acquire on an empty semaphore never returns in this model
  (Option.none), and an exception escaping a noexcept member terminates the
  program, which is likewise a non-returning outcome.
-/

/-- std::clamp(v, lo, hi): v if lo <= v <= hi, else the nearer bound
(well-defined for lo <= hi, which every use below instantiates). -/
def clampInt (v lo hi : Int) : Int :=
  if v < lo then lo else if hi < v then hi else v

/-- Constructor, lines 35-36: m_count(desired).  The desired value is stored
exactly as given, with no clamping and no range check. -/
def counting_semaphore (desired : Int := 0) : Int :=
  desired

/-- Errors std::unique_lock member functions can throw,
per [thread.lock.unique.locking]. -/
inductive LockErr where
  | operationNotPermitted
  | resourceDeadlockWouldOccur
deriving DecidableEq

/-- State of a std::unique_lock: whether it references a mutex and whether it
currently owns it. -/
structure UniqueLock where
  hasMutex : Bool
  owns : Bool
deriving DecidableEq

/-- The locking constructor unique_lock(m): blocks until the mutex is
acquired, then owns it. -/
def UniqueLock.lockOnConstruct : UniqueLock :=
  { hasMutex := true, owns := true }

/-- unique_lock::try_lock, per [thread.lock.unique.locking]: throws
operation_not_permitted when there is no associated mutex, throws
resource_deadlock_would_occur when the lock already owns its mutex, and
otherwise forwards to the mutex, returning whether the mutex was free. -/
def UniqueLock.tryLock (l : UniqueLock) (mutexFree : Bool) :
    Except LockErr (Bool × UniqueLock) :=
  if !l.hasMutex then .error .operationNotPermitted
  else if l.owns then .error .resourceDeadlockWouldOccur
  else .ok (mutexFree, { l with owns := mutexFree })

/-- Outcome of counting_semaphore::try_acquire: either a normal return with a
Bool and the resulting m_count, or program termination (std::terminate) when
an exception escapes the noexcept function. -/
inductive TryAcquireResult where
  | returns (b : Bool) (count : Int)
  | terminated
deriving DecidableEq

namespace counting_semaphore

/-- release(update), lines 57-62: under the lock,
m_count = std::clamp(m_count + update, 0, LeastMaxValue), then notify_all. -/
def release (L c update : Int) : Int :=
  clampInt (c + update) 0 L

/-- acquire(), lines 68-74: waits on the condition variable until
m_count > 0, then m_count = std::clamp(m_count - 1, 0, LeastMaxValue) and
notify_all.  In the single-threaded model a wait with m_count <= 0 never
returns, hence Option.none. -/
def acquire (L c : Int) : Option Int :=
  if 0 < c then some (clampInt (c - 1) 0 L) else none

/-- try_acquire(), lines 82-90 (declared noexcept): constructs a unique_lock
on m_lock (the locking constructor, which acquires the mutex), then calls
lock.try_lock(); on true it clamps the decrement and returns true, on false
it returns false.  A throw from try_lock escapes the noexcept function and
terminates the program.  The mutex is uncontended from the point of view of
this thread once the constructor returns, so the Bool fed to tryLock is
irrelevant; it is passed as true. -/
def try_acquire (L c : Int) : TryAcquireResult :=
  let lock := UniqueLock.lockOnConstruct
  match lock.tryLock true with
  | .error _ => .terminated
  | .ok (true, _) => .returns true (clampInt (c - 1) 0 L)
  | .ok (false, _) => .returns false c

/-- condition_variable::wait_for(lock, rel_time, pred) in the single-threaded
model: returns the value of the predicate together with the time spent
blocked.  The predicate reads m_count, which no other thread can change while
this thread blocks, so a false predicate stays false until the timeout. -/
def cv_wait_for (relTime : Int) (pred : Bool) : Bool × Int :=
  if pred then (true, 0) else (false, max relTime 0)

/-- condition_variable::wait_until(lock, abs_time, pred) in the
single-threaded model: as cv_wait_for, blocking until the absolute deadline
(not at all when the deadline is not in the future). -/
def cv_wait_until (now deadline : Int) (pred : Bool) : Bool × Int :=
  if pred then (true, 0) else (false, max (deadline - now) 0)

/-- try_acquire_for(rel_time), lines 100-108: wait_for on m_count > 0; on
true clamp the decrement and return true, else return false.  The result is
(returned Bool, resulting m_count, time spent blocked). -/
def try_acquire_for (L relTime c : Int) : Bool × Int × Int :=
  let w := cv_wait_for relTime (decide (0 < c))
  if w.1 then (true, clampInt (c - 1) 0 L, w.2) else (false, c, w.2)

/-- try_acquire_until(abs_time), lines 118-126: wait_until on m_count > 0; on
true clamp the decrement and return true, else return false.  The result is
(returned Bool, resulting m_count, time spent blocked). -/
def try_acquire_until (L now deadline c : Int) : Bool × Int × Int :=
  let w := cv_wait_until now deadline (decide (0 < c))
  if w.1 then (true, clampInt (c - 1) 0 L, w.2) else (false, c, w.2)

/-- max(), lines 135-137: returns LeastMaxValue.  The body reads no data
member, so the model returns the bound paired with the unchanged count. -/
def max (L c : Int) : Int × Int :=
  (L, c)

end counting_semaphore

/-- Line 145: using binary_semaphore = counting_semaphore(1), the bound-1
specialization. -/
def binary_semaphore_LeastMaxValue : Int := 1

/-- One operation of the public mutating API, for reasoning about sequences
of operations. -/
inductive Op where
  | release (update : Int)
  | acquire
  | tryAcquire
  | tryAcquireFor (relTime : Int)
  | tryAcquireUntil (now deadline : Int)

/-- Effect of one operation on m_count in the single-threaded model.
Option.none marks an operation that never completes: a blocking acquire on an
empty semaphore, or try_acquire terminating the program. -/
def Op.step (L c : Int) : Op → Option Int
  | .release u => some (counting_semaphore.release L c u)
  | .acquire => counting_semaphore.acquire L c
  | .tryAcquire =>
      match counting_semaphore.try_acquire L c with
      | .returns _ c2 => some c2
      | .terminated => none
  | .tryAcquireFor t => some (counting_semaphore.try_acquire_for L t c).2.1
  | .tryAcquireUntil now dl =>
      some (counting_semaphore.try_acquire_until L now dl c).2.1

/-- Runs a sequence of operations from a starting count, stopping at the
first operation that never completes. -/
def runOps (L : Int) (c : Int) : List Op → Option Int
  | [] => some c
  | op :: ops =>
      match Op.step L c op with
      | some c2 => runOps L c2 ops
      | none => none

/-- N successive calls to release(1). -/
def releaseN (L : Int) : Nat → Int → Int
  | 0, c => c
  | n + 1, c => releaseN L n (counting_semaphore.release L c 1)

/-- N successive calls to acquire, Option.none if any of them blocks
forever. -/
def acquireN (L : Int) : Nat → Int → Option Int
  | 0, c => some c
  | n + 1, c =>
      match counting_semaphore.acquire L c with
      | some c2 => acquireN L n c2
      | none => none

/-- Modelled from the spec: a try_acquire-style probe with checked predicate
(the permit condition m_count > 0 is tested before the decrement); the source
file has no such probe, its try_acquire omits the check.  Returns the Bool
and the resulting count. -/
def checked_try_acquire (L c : Int) : Bool × Int :=
  if 0 < c then (true, clampInt (c - 1) 0 L) else (false, c)

/- ------------------------- helper lemmas ------------------------- -/

theorem clampInt_nonneg (v L : Int) (hL : 0 ≤ L) : 0 ≤ clampInt v 0 L := by
  unfold clampInt
  split_ifs <;> omega

theorem clampInt_le (v L : Int) (hL : 0 ≤ L) : clampInt v 0 L ≤ L := by
  unfold clampInt
  split_ifs <;> omega

theorem clampInt_eq_self (v L : Int) (h0 : 0 ≤ v) (h1 : v ≤ L) :
    clampInt v 0 L = v := by
  unfold clampInt
  split_ifs <;> omega

theorem clampInt_eq_max_min (v L : Int) (hL : 0 ≤ L) :
    clampInt v 0 L = max 0 (min v L) := by
  unfold clampInt
  rw [Int.max_def, Int.min_def]
  split_ifs <;> omega

/-- Every single operation that completes keeps the count within [0, L]. -/
theorem Op.step_preserves (L c c2 : Int) (op : Op) (h0 : 0 ≤ c) (h1 : c ≤ L)
    (hstep : Op.step L c op = some c2) : 0 ≤ c2 ∧ c2 ≤ L := by
  have hL : 0 ≤ L := le_trans h0 h1
  cases op with
  | release u =>
      simp only [Op.step, counting_semaphore.release, Option.some.injEq] at hstep
      subst hstep
      exact ⟨clampInt_nonneg _ _ hL, clampInt_le _ _ hL⟩
  | acquire =>
      simp only [Op.step, counting_semaphore.acquire] at hstep
      split at hstep
      · simp only [Option.some.injEq] at hstep
        subst hstep
        exact ⟨clampInt_nonneg _ _ hL, clampInt_le _ _ hL⟩
      · exact absurd hstep (by simp)
  | tryAcquire =>
      rw [show Op.step L c Op.tryAcquire = none from rfl] at hstep
      exact absurd hstep (by simp)
  | tryAcquireFor t =>
      simp only [Op.step, counting_semaphore.try_acquire_for,
        counting_semaphore.cv_wait_for, Option.some.injEq] at hstep
      by_cases hc : 0 < c
      · simp [hc] at hstep
        subst hstep
        exact ⟨clampInt_nonneg _ _ hL, clampInt_le _ _ hL⟩
      · simp [hc] at hstep
        subst hstep
        exact ⟨h0, h1⟩
  | tryAcquireUntil now dl =>
      simp only [Op.step, counting_semaphore.try_acquire_until,
        counting_semaphore.cv_wait_until, Option.some.injEq] at hstep
      by_cases hc : 0 < c
      · simp [hc] at hstep
        subst hstep
        exact ⟨clampInt_nonneg _ _ hL, clampInt_le _ _ hL⟩
      · simp [hc] at hstep
        subst hstep
        exact ⟨h0, h1⟩

theorem releaseN_eq (L : Int) (n : Nat) :
    ∀ c : Int, 0 ≤ c → c + n ≤ L → releaseN L n c = c + n := by
  induction n with
  | zero => intro c _ _; simp [releaseN]
  | succ n ih =>
      intro c h0 h1
      have hstep : counting_semaphore.release L c 1 = c + 1 := by
        unfold counting_semaphore.release
        exact clampInt_eq_self _ _ (by omega) (by push_cast at h1 ⊢; omega)
      simp only [releaseN, hstep]
      have := ih (c + 1) (by omega) (by push_cast at h1 ⊢; omega)
      rw [this]; push_cast; ring

theorem acquireN_eq (L : Int) (n : Nat) :
    ∀ c : Int, (n : Int) ≤ c → c ≤ L → acquireN L n c = some (c - n) := by
  induction n with
  | zero => intro c _ _; simp [acquireN]
  | succ n ih =>
      intro c h0 h1
      have hc : 0 < c := by push_cast at h0; omega
      have hstep : counting_semaphore.acquire L c = some (c - 1) := by
        unfold counting_semaphore.acquire
        rw [if_pos hc, clampInt_eq_self _ _ (by omega) (by omega)]
      simp only [acquireN, hstep]
      have := ih (c - 1) (by push_cast at h0 ⊢; omega) (by omega)
      rw [this]
      congr 1
      push_cast; ring

/- ------------------------- claim theorems ------------------------- -/

/-- C1: the claim states that when the internal lock is obtained
(uncontended), try_acquire decrements the count (clamped) and returns true.
Evaluating the code at the failing input (bound 1, count 0, uncontended): the
unique_lock constructor already owns the mutex, lock.try_lock() throws
resource_deadlock_would_occur, and the exception escaping the noexcept
function terminates the program, so the call never returns at all. -/
theorem C1_try_acquire_terminates_at_failing_input :
    counting_semaphore.try_acquire 1 0 = TryAcquireResult.terminated := rfl

/-- C2: for every sequence of operations (release with any update, acquire,
try_acquire, try_acquire_for, try_acquire_until) started from a count in
[0, max], the count is in [0, max] after every operation that completes
(quantifying over all operation lists covers every prefix, hence every
intermediate state). -/
theorem C2_invariant_preserved (L c0 : Int) (ops : List Op) (c : Int)
    (h0 : 0 ≤ c0) (h1 : c0 ≤ L) (hrun : runOps L c0 ops = some c) :
    0 ≤ c ∧ c ≤ L := by
  revert h0 h1 hrun
  induction ops generalizing c0 with
  | nil =>
      intro h0 h1 hrun
      simp only [runOps, Option.some.injEq] at hrun
      subst hrun
      exact ⟨h0, h1⟩
  | cons op ops ih =>
      intro h0 h1 hrun
      simp only [runOps] at hrun
      cases hstep : Op.step L c0 op with
      | none => rw [hstep] at hrun; exact absurd hrun (by simp)
      | some c2 =>
          rw [hstep] at hrun
          obtain ⟨h2, h3⟩ := Op.step_preserves L c0 c2 op h0 h1 hstep
          exact ih c2 h2 h3 hrun

/-- Witness for C2 at bound 2, start 0, three operations ending at count 0. -/
theorem C2_witness :
    runOps 2 0 [Op.release 5, Op.tryAcquireFor 10, Op.acquire] = some 0 ∧
    ((0 : Int) ≤ 0 ∧ (0 : Int) ≤ 2) :=
  ⟨by decide,
   C2_invariant_preserved 2 0 [Op.release 5, Op.tryAcquireFor 10, Op.acquire]
     0 (by decide) (by decide) (by decide)⟩

/-- C3 as stated is false at a concrete input: with bound 1, the deadline one
tick in the past and one permit available, try_acquire_until returns true and
decrements the count rather than returning false with the count unchanged. -/
theorem C3_counterexample :
    ¬((counting_semaphore.try_acquire_until 1 1 0 1).1 = false ∧
      (counting_semaphore.try_acquire_until 1 1 0 1).2.1 = 1) := by
  decide

/-- C3 amended: for every deadline not in the future, try_acquire_until
returns immediately (time spent blocked is 0); it returns false with the
count unchanged exactly when the count is not positive, and otherwise returns
true with the count decremented (clamped). -/
theorem C3_amended_past_deadline (L now dl c : Int) (h : dl ≤ now) :
    (counting_semaphore.try_acquire_until L now dl c).2.2 = 0 ∧
    (c ≤ 0 →
      counting_semaphore.try_acquire_until L now dl c = (false, c, 0)) ∧
    (0 < c →
      counting_semaphore.try_acquire_until L now dl c =
        (true, clampInt (c - 1) 0 L, 0)) := by
  have hmax : max (dl - now) 0 = 0 := by omega
  by_cases hc : 0 < c
  · have he : counting_semaphore.try_acquire_until L now dl c =
        (true, clampInt (c - 1) 0 L, 0) := by
      simp [counting_semaphore.try_acquire_until,
        counting_semaphore.cv_wait_until, hc]
    rw [he]
    exact ⟨rfl, fun h2 => absurd hc (by omega), fun _ => rfl⟩
  · have he : counting_semaphore.try_acquire_until L now dl c =
        (false, c, 0) := by
      simp [counting_semaphore.try_acquire_until,
        counting_semaphore.cv_wait_until, hc, hmax]
    rw [he]
    exact ⟨rfl, fun _ => rfl, fun h2 => absurd h2 hc⟩

/-- Witness for C3 amended at bound 1, now 1, deadline 0, count 0. -/
theorem C3_amended_witness :
    (0 : Int) ≤ 1 ∧
    ((counting_semaphore.try_acquire_until 1 1 0 0).2.2 = 0 ∧
     ((0 : Int) ≤ 0 →
       counting_semaphore.try_acquire_until 1 1 0 0 = (false, 0, 0)) ∧
     ((0 : Int) < 0 →
       counting_semaphore.try_acquire_until 1 1 0 0 =
         (true, clampInt (0 - 1) 0 1, 0))) :=
  ⟨by decide, C3_amended_past_deadline 1 1 0 0 (by decide)⟩

/-- C4: from any count in [0, max] and any integer update, release sets the
count to clamp(count + update, 0, max); releasing to or beyond max leaves the
count at max, and a nonpositive update decrements with a floor of 0. -/
theorem C4_release_clamps (L c u : Int) (h0 : 0 ≤ c) (h1 : c ≤ L) :
    counting_semaphore.release L c u = max 0 (min (c + u) L) ∧
    (L ≤ c + u → counting_semaphore.release L c u = L) ∧
    (u ≤ 0 → counting_semaphore.release L c u = max 0 (c + u)) := by
  have hL : 0 ≤ L := le_trans h0 h1
  unfold counting_semaphore.release
  refine ⟨clampInt_eq_max_min _ _ hL, fun h => ?_, fun h => ?_⟩
  · unfold clampInt; split_ifs <;> omega
  · unfold clampInt; rw [Int.max_def]; split_ifs <;> omega

/-- Witness for C4 at bound 2, count 2, update 5 (release beyond max). -/
theorem C4_witness :
    (0 : Int) ≤ 2 ∧ (2 : Int) ≤ 2 ∧
    (counting_semaphore.release 2 2 5 = max 0 (min (2 + 5) 2) ∧
     ((2 : Int) ≤ 2 + 5 → counting_semaphore.release 2 2 5 = 2) ∧
     ((5 : Int) ≤ 0 → counting_semaphore.release 2 2 5 = max 0 (2 + 5))) :=
  ⟨by decide, by decide, C4_release_clamps 2 2 5 (by decide) (by decide)⟩

/-- C5 as stated is false at a concrete reachable input: the claim
quantifies over every pre-state with count > 0, but at bound 1 with count 3
(reachable, since the constructor stores 3 unclamped) acquire yields count 1
via the upper clamp, not 3 - 1 = 2. -/
theorem C5_counterexample :
    counting_semaphore (3 : Int) = 3 ∧
    counting_semaphore.acquire 1 (counting_semaphore 3) = some 1 ∧
    some ((3 : Int) - 1) ≠ some (1 : Int) := by
  decide

/-- C5 amended: acquire proceeds only when count > 0 (it blocks, never
returning, otherwise), and for every pre-state with 0 < count <= max it
decrements by exactly 1, the clamp altering nothing, and never fails. -/
theorem C5_acquire_decrements (L c : Int) (hc : 0 < c) (hmax : c ≤ L) :
    counting_semaphore.acquire L c = some (c - 1) ∧
    (∀ c2 : Int, c2 ≤ 0 → counting_semaphore.acquire L c2 = none) := by
  constructor
  · unfold counting_semaphore.acquire
    rw [if_pos hc, clampInt_eq_self _ _ (by omega) (by omega)]
  · intro c2 h2
    unfold counting_semaphore.acquire
    rw [if_neg (by omega)]

/-- Witness for C5 amended at bound 2, count 1. -/
theorem C5_witness :
    (0 : Int) < 1 ∧ (1 : Int) ≤ 2 ∧
    (counting_semaphore.acquire 2 1 = some (1 - 1) ∧
     (∀ c2 : Int, c2 ≤ 0 → counting_semaphore.acquire 2 c2 = none)) :=
  ⟨by decide, by decide, C5_acquire_decrements 2 1 (by decide) (by decide)⟩

/-- C6: try_acquire_for returns true exactly when the count is positive
before the timeout elapses (in the single-threaded model the count cannot
become positive during the wait); on true the count is decremented (clamped),
and on false (timeout) the count is unchanged. -/
theorem C6_try_acquire_for_iff (L t c : Int) :
    ((counting_semaphore.try_acquire_for L t c).1 = true ↔ 0 < c) ∧
    ((counting_semaphore.try_acquire_for L t c).1 = true →
      (counting_semaphore.try_acquire_for L t c).2.1 = clampInt (c - 1) 0 L) ∧
    ((counting_semaphore.try_acquire_for L t c).1 = false →
      (counting_semaphore.try_acquire_for L t c).2.1 = c) := by
  by_cases hc : 0 < c <;>
    simp [counting_semaphore.try_acquire_for, counting_semaphore.cv_wait_for,
      hc]

/-- Witness for C6 at bound 2, timeout 10, count 1. -/
theorem C6_witness :
    ((counting_semaphore.try_acquire_for 2 10 1).1 = true ↔ (0 : Int) < 1) ∧
    ((counting_semaphore.try_acquire_for 2 10 1).1 = true →
      (counting_semaphore.try_acquire_for 2 10 1).2.1 =
        clampInt (1 - 1) 0 2) ∧
    ((counting_semaphore.try_acquire_for 2 10 1).1 = false →
      (counting_semaphore.try_acquire_for 2 10 1).2.1 = 1) :=
  C6_try_acquire_for_iff 2 10 1

/-- C7: starting from count 0, N calls to release(1) bring the count to N
(each adds exactly one permit, N <= max), N calls to acquire then all
complete and bring the count back to 0, and a predicate-checked probe then
reports no permits remaining with the count unchanged. -/
theorem C7_round_trip (L : Int) (N : Nat) (hN : (N : Int) ≤ L) :
    releaseN L N 0 = (N : Int) ∧
    acquireN L N (releaseN L N 0) = some 0 ∧
    checked_try_acquire L 0 = (false, 0) := by
  have hrel : releaseN L N 0 = (N : Int) := by
    have := releaseN_eq L N 0 le_rfl (by omega)
    omega
  refine ⟨hrel, ?_, ?_⟩
  · rw [hrel]
    have := acquireN_eq L N (N : Int) le_rfl hN
    simpa using this
  · simp [checked_try_acquire]

/-- Witness for C7 at bound 3, N = 2. -/
theorem C7_witness :
    ((2 : Nat) : Int) ≤ 3 ∧
    (releaseN 3 2 0 = ((2 : Nat) : Int) ∧
     acquireN 3 2 (releaseN 3 2 0) = some 0 ∧
     checked_try_acquire 3 0 = (false, 0)) :=
  ⟨by decide, C7_round_trip 3 2 (by decide)⟩

/-- C8: max() returns the fixed bound LeastMaxValue and leaves the count
unchanged (it reads no mutable member, so lock and condition variable are
untouched as well); for the binary_semaphore alias the bound is 1, so its
max() returns 1. -/
theorem C8_max_pure :
    (∀ L c : Int, counting_semaphore.max L c = (L, c)) ∧
    (∀ c : Int,
      (counting_semaphore.max binary_semaphore_LeastMaxValue c).1 = 1) :=
  ⟨fun _ _ => rfl, fun _ => rfl⟩

/-- C9: the constructor stores the caller-supplied desired value exactly,
with no clamping: for every desired value the starting count equals desired,
and concrete out-of-range values (desired = -1, or desired = 5 against the
binary bound 1) give a starting count outside [0, max]. -/
theorem C9_constructor_unclamped :
    (∀ d : Int, counting_semaphore d = d) ∧
    counting_semaphore (-1) = -1 ∧ ¬(0 ≤ counting_semaphore (-1)) ∧
    counting_semaphore 5 = 5 ∧
    ¬(counting_semaphore 5 ≤ binary_semaphore_LeastMaxValue) :=
  ⟨fun _ => rfl, rfl, by decide, rfl, by decide⟩

/-- C10: in try_acquire the unique_lock constructor has already acquired the
mutex (owns = true) before lock.try_lock() runs; try_lock on an owning
unique_lock yields the resource_deadlock_would_occur error rather than a
Bool; and since try_acquire is noexcept, for every bound and every count the
call terminates the program instead of returning. -/
theorem C10_try_acquire_never_returns :
    (∀ L c : Int,
      counting_semaphore.try_acquire L c = TryAcquireResult.terminated) ∧
    UniqueLock.lockOnConstruct.owns = true ∧
    (∀ free : Bool,
      UniqueLock.lockOnConstruct.tryLock free =
        Except.error LockErr.resourceDeadlockWouldOccur) :=
  ⟨fun _ _ => rfl, rfl, fun _ => rfl⟩
